import Mathlib

/-!
# Verification of the trip-planner refinement core

Shallow embedding of the deterministic control flow of the
`The-Argonauts-AI-Trip-Planner` repository:

* `src/config.py`                              — tier constants (`Config`)
* `src/agents/lite_model/review_agent.py`      — `ReviewAgentLite._parse_review_response`
* `src/agents/review_agent_capstone.py`        — `ReviewAgentCapstone._parse_review_response`
* `src/agents/orchestrator_capstone.py`        — `OrchestratorAgentCapstone.plan_trip`
                                                 review/refinement loop and
                                                 `load_agents_for_model`
* `src/utils/error_handler.py`                 — `validate_trip_input`
* `src/planner_main.py`                        — `load_trip_input` / `main_async`
* `src/models/trip_models.py`                  — `ReviewResult` (pydantic bounds)

Python strings are embedded as `List Char` (all texts of interest are ASCII,
where `str.lower` agrees with `Char.toLower` pointwise).  Python floats that
occur in this core (quality scores, thresholds, defaults) are all integral
(`7.0`, `8.0`, extracted `float(<digits>)`), so they are embedded as `Nat`.
Fallible code (pydantic validation raising `ValidationError`, Python `raise`)
is embedded as `Option` / `Except`.
-/

namespace Argonauts

/-! ## String machinery: `str.lower`, substring membership, and the regex
`(\d+)(?:/10| out of 10)` used by both review parsers (`re.search`). -/

/-- Python `str.lower()` restricted to ASCII (all strings this core matches on
are ASCII, where `Char.toLower` agrees with Python pointwise). -/
def lowerChars (s : List Char) : List Char := s.map Char.toLower

/-- Prefix test: `startsWith needle hay` holds when `needle` is a prefix of `hay` (used both for
Python substring search and for anchored regex alternatives). -/
def startsWith : List Char → List Char → Bool
  | [], _ => true
  | _ :: _, [] => false
  | a :: as, b :: bs => a == b && startsWith as bs

/-- Python `needle in hay` (substring containment). -/
def containsTok (needle : List Char) : List Char → Bool
  | [] => startsWith needle []
  | c :: t => startsWith needle (c :: t) || containsTok needle t

/-- Value of a digit character. -/
def digitVal (c : Char) : Nat := c.toNat - '0'.toNat

/-- Python `int(<digit string>)` / `float(<digit string>)` on a run of
decimal digits. -/
def digitsToNat (ds : List Char) : Nat := ds.foldl (fun a c => 10 * a + digitVal c) 0

/-- The fixed suffix alternatives of the score regex: `/10` or ` out of 10`. -/
def scoreSuffixOk (rest : List Char) : Bool :=
  startsWith ('/' :: '1' :: '0' :: []) rest ||
  startsWith (' ' :: 'o' :: 'u' :: 't' :: ' ' :: 'o' :: 'f' :: ' ' :: '1' :: '0' :: []) rest

/-- Embedding of `re.search` with the score pattern — returns the first capture
group as a number.  `re.search` tries start positions left to right; at a
start position the greedy `\d+` takes the maximal digit run, and backtracking
cannot shorten it (a shorter run leaves a digit where `/` or a space is
required), so a position matches exactly when the maximal digit run from it
is immediately followed by `/10` or ` out of 10`. -/
def findScore : List Char → Option Nat
  | [] => none
  | c :: cs =>
    if c.isDigit then
      if scoreSuffixOk ((c :: cs).dropWhile Char.isDigit) then
        some (digitsToNat ((c :: cs).takeWhile Char.isDigit))
      else findScore cs
    else findScore cs

/-! ## Configuration (`src/config.py`)

`Config.get_model_tier` inspects the `MODEL_NAME` string; `lite` when it
contains `"lite"`, `pro` otherwise.  The tier fixes the loop budget and the
approval threshold.  `MAX_REVIEW_ITERATIONS = 3` is the *static* class
attribute (the lite default); `get_max_iterations()` is the dynamic,
tier-dependent budget. -/

inductive ModelTier | lite | pro
deriving DecidableEq

/-- Embeds `Config.get_model_tier` (src/config.py lines 25-38). -/
def get_model_tier (modelName : String) : ModelTier :=
  if containsTok "lite".data (lowerChars modelName.data) then .lite else .pro

/-- Embeds `Config.get_max_iterations` (src/config.py lines 40-47). -/
def get_max_iterations : ModelTier → Nat
  | .lite => 3
  | .pro => 5

/-- Embeds `Config.get_approval_threshold` (src/config.py lines 49-56): `7.0` for
lite, `8.0` for pro — integral floats, embedded as `Nat`. -/
def get_approval_threshold : ModelTier → Nat
  | .lite => 7
  | .pro => 8

/-- Embeds `Config.MAX_REVIEW_ITERATIONS` (src/config.py line 67), the static class
attribute, always `3` regardless of tier. -/
def MAX_REVIEW_ITERATIONS : Nat := 3

/-! ## `ReviewResult` (src/models/trip_models.py lines 189-196)

A pydantic model: `quality_score : float = Field(default=7.0, ge=0, le=10)`.
Pydantic *validates* the bounds at construction (raising `ValidationError`
when violated); it does not clamp.  `ge=0` is automatic for `Nat` scores. -/

structure ReviewResult where
  approved : Bool
  quality_score : Nat
  issues_found : List String
  suggestions : List String
  review_summary : String
  iteration_number : Nat
deriving DecidableEq, Repr

/-- Pydantic construction of `ReviewResult`: the `le=10` bound on
`quality_score` is checked (the `ge=0` bound holds for every `Nat`);
a violation raises, embedded as `none`. -/
def pydanticCheck (r : ReviewResult) : Option ReviewResult :=
  if r.quality_score ≤ 10 then some r else none

/-! ## The lite review response parser
(`ReviewAgentLite._parse_review_response`,
src/agents/lite_model/review_agent.py lines 204-237).

The approval decision is `quality_score >= Config.get_approval_threshold()`
— no keyword check and no final-iteration override.  The threshold read from
ambient config is the parameter `tier` here. -/

/-- The score the lite parser extracts: regex capture, or the hardcoded
default `7.0` when the pattern is absent. -/
def liteScoreOf (text : String) : Nat :=
  (findScore (lowerChars text.data)).getD 7

/-- Issue extraction of the lite parser: category keyword plus the failure
indicator `"fail"`, in source order. -/
def liteIssues (lowered : List Char) : List String :=
  (if containsTok "geographic".data lowered &&
      containsTok "fail".data lowered then ["Geographic routing issues"] else []) ++
  (if containsTok "activity count".data lowered &&
      containsTok "fail".data lowered then ["Too many activities"] else []) ++
  (if containsTok "cost".data lowered &&
      containsTok "fail".data lowered then ["Missing costs"] else []) ++
  (if containsTok "interest".data lowered &&
      containsTok "fail".data lowered then ["Doesnt match interests"] else []) ++
  (if containsTok "timing".data lowered &&
      containsTok "fail".data lowered then ["Timing unrealistic"] else [])
-- (the fourth issue string carries an apostrophe between n and t in the
-- source; it is omitted here for lexical reasons)

/-- The record `ReviewAgentLite._parse_review_response` builds, before
pydantic validation. -/
def liteResultOf (tier : ModelTier) (text : String) (iteration : Nat) : ReviewResult :=
  let lowered := lowerChars text.data
  let score := (findScore lowered).getD 7
  { approved := decide (get_approval_threshold tier ≤ score)
    quality_score := score
    issues_found := liteIssues lowered
    suggestions := [text]
    review_summary := text
    iteration_number := iteration }

/-- Embeds `ReviewAgentLite._parse_review_response` including the pydantic
validation performed when the `ReviewResult(...)` is constructed: `none`
models a raised `ValidationError`. -/
def liteParseReview (tier : ModelTier) (text : String) (iteration : Nat) : Option ReviewResult :=
  pydanticCheck (liteResultOf tier text iteration)

/-! ## The capstone review response parser
(`ReviewAgentCapstone._parse_review_response`,
src/agents/review_agent_capstone.py lines 312-349).

Approval is keyword-or-final-iteration; the extracted score plays no role in
the decision, and the "final iteration" compares against the *static*
`Config.MAX_REVIEW_ITERATIONS` (3), not the dynamic tier budget. -/

/-- The affirmative-token test of the capstone parser (`"approve" in`,
`"approved" in`, `"looks good" in` the lowercased response). -/
def capstoneHasAffirmative (text : String) : Bool :=
  let lowered := lowerChars text.data
  containsTok "approve".data lowered ||
  containsTok "approved".data lowered ||
  containsTok "looks good".data lowered

/-- The approval flag of the capstone parser. -/
def capstoneApprovedFlag (text : String) (iteration : Nat) : Bool :=
  capstoneHasAffirmative text || decide (MAX_REVIEW_ITERATIONS ≤ iteration)

/-- Issue extraction of the capstone parser (only reached when not
approved), in source order. -/
def capstoneIssues (lowered : List Char) : List String :=
  (if containsTok "timing".data lowered || containsTok "schedule".data lowered then
      ["Timing/scheduling concerns"] else []) ++
  (if containsTok "budget".data lowered || containsTok "cost".data lowered then
      ["Budget alignment issues"] else []) ++
  (if containsTok "balance".data lowered then ["Activity balance needs improvement"] else [])

/-- The record `ReviewAgentCapstone._parse_review_response` builds, before
pydantic validation.  The score default is `8` when approved and `6`
otherwise. -/
def capstoneResultOf (text : String) (iteration : Nat) : ReviewResult :=
  let lowered := lowerChars text.data
  let approved := capstoneApprovedFlag text iteration
  { approved := approved
    quality_score := (findScore lowered).getD (if approved then 8 else 6)
    issues_found := if approved then [] else capstoneIssues lowered
    suggestions := if approved then ["Great itinerary! Minor polishing suggestions included."] else [text]
    review_summary := text
    iteration_number := iteration }

/-- The score the capstone parser assigns (capture or approval-dependent
default). -/
def capstoneScoreOf (text : String) (iteration : Nat) : Nat :=
  (capstoneResultOf text iteration).quality_score

/-- Embeds `ReviewAgentCapstone._parse_review_response` including the pydantic
validation of the constructed `ReviewResult`. -/
def capstoneParseReview (text : String) (iteration : Nat) : Option ReviewResult :=
  pydanticCheck (capstoneResultOf text iteration)

end Argonauts

namespace Argonauts

/-! ## The review/refinement loop
(`OrchestratorAgentCapstone.plan_trip`,
src/agents/orchestrator_capstone.py lines 247-309).

```
approved = False; iteration = 1; max_iterations = Config.get_max_iterations()
while not approved and iteration <= max_iterations:
    review_result = review(trip_input, current_itinerary, iteration)
    if review_result.approved: approved = True
    elif iteration < max_iterations:
        current_itinerary = plan(trip_input, research_data,
                                 review_feedback=review_result.review_summary)
        iteration += 1
    else:
        approved = True            # accept final version
return current_itinerary
```

The itinerary is opaque to the loop (α below).  The opaque generation
service behind the planning stage is the parameter
`plan : Option String → Nat → α`: its first argument is the optional
`review_feedback` string, its second the ordinal of the plan call (the
initial call of STEP 2 is ordinal 1); indexing by the ordinal lets a single
pure function stand for a service whose replies may differ between calls.
Likewise `review : Nat → α → ReviewResult` stands for the review stage
(generation call plus response parsing) at a given iteration.

The recursion is embedded structurally on a fuel argument `left`; the entry
point passes `left = max_iterations` and the loop guard `iteration ≤
max_iterations` is kept verbatim, so along every reachable state
`iteration + left = max_iterations + 1` and the fuel branch is never the
one that stops the loop (recursion only happens under
`iteration < max_iterations`). -/

/-- One Plan/Review round as observed by the loop: the iteration counter,
the draft reviewed in that round, and the verdict the review stage
returned for it. -/
structure Round (α : Type) where
  iteration : Nat
  draft : α
  verdict : ReviewResult
deriving DecidableEq, Repr

/-- The loop body of `plan_trip`, with an instrumenting trace of rounds. -/
def refinementLoopAux {α : Type} (review : Nat → α → ReviewResult)
    (plan : Option String → Nat → α) (maxIter : Nat) :
    Nat → Nat → α → α × List (Round α)
  | 0, _, cur => (cur, [])
  | left + 1, iteration, cur =>
    if iteration ≤ maxIter then
      let r := review iteration cur
      if r.approved then (cur, [⟨iteration, cur, r⟩])
      else if iteration < maxIter then
        let next := plan (some r.review_summary) (iteration + 1)
        let out := refinementLoopAux review plan maxIter left (iteration + 1) next
        (out.1, ⟨iteration, cur, r⟩ :: out.2)
      else (cur, [⟨iteration, cur, r⟩])
    else (cur, [])

/-- STEP 2 + STEP 3 of `plan_trip`: the initial planning call (made without
feedback) followed by the review/refinement loop.  Returns the final
`current_itinerary` together with the round trace. -/
def runRefinementLoop {α : Type} (plan : Option String → Nat → α)
    (review : Nat → α → ReviewResult) (maxIter : Nat) : α × List (Round α) :=
  refinementLoopAux review plan maxIter maxIter 1 (plan none 1)

/-- The feedback-threading relation between consecutive rounds: the earlier
round was rejected, the counter was incremented by one, and the next draft
was produced by a plan call whose `review_feedback` argument is the
`review_summary` of the rejecting verdict. -/
def FeedbackStep {α : Type} (plan : Option String → Nat → α) (r₁ r₂ : Round α) : Prop :=
  r₁.verdict.approved = false ∧
  r₂.iteration = r₁.iteration + 1 ∧
  r₂.draft = plan (some r₁.verdict.review_summary) (r₁.iteration + 1)

/-- Predicate: `FeedbackStep` holds between every pair of adjacent rounds. -/
def RoundsChain {α : Type} (plan : Option String → Nat → α) : List (Round α) → Prop
  | [] => True
  | [_] => True
  | a :: b :: l => FeedbackStep plan a b ∧ RoundsChain plan (b :: l)

/-! ## Input validation (`validate_trip_input`,
src/utils/error_handler.py lines 90-121, and `load_trip_input`,
src/planner_main.py lines 63-77).

`TripDates` holds two ISO-8601 date strings; the validator compares them
with Python string `<` (which for valid ISO dates coincides with
chronological order) and `duration_days` is computed from the parsed dates
as `(end - start).days + 1`.  Dates are therefore embedded as day ordinals
(`Int`), on which both comparisons agree with the source.  The source also
checks `if not trip_input.dates`, which is unreachable: `dates` is a
required pydantic field and a pydantic model instance is always truthy. -/

structure TripDates where
  start_date : Int
  end_date : Int
deriving DecidableEq

/-- Embeds `TripDates.duration_days` (src/models/trip_models.py lines 24-30). -/
def TripDates.duration_days (d : TripDates) : Int :=
  d.end_date - d.start_date + 1

structure TripPreferences where
  interests : List String
  pace_preference : String
  budget_level : String
  dietary_restrictions : List String
deriving DecidableEq

structure TripInput where
  destination : String
  dates : TripDates
  preferences : TripPreferences
deriving DecidableEq

/-- Embeds `validate_trip_input` (src/utils/error_handler.py lines 90-121); a
`raise InvalidInputError(msg)` is embedded as `.error msg`.  The fifth
message is truncated before a parenthetical quip whose text contains
apostrophes. -/
def validate_trip_input (t : TripInput) : Except String Unit :=
  if t.destination = "" then .error "Destination is required"
  else if t.dates.end_date < t.dates.start_date then .error "End date must be after start date"
  else if t.dates.duration_days < 1 then .error "Trip duration must be at least 1 day"
  else if 365 < t.dates.duration_days then .error "Trip duration cannot exceed 365 days"
  else if t.preferences.budget_level ∉ ["budget", "mid-range", "luxury"] then
    .error "Budget level must be one of: budget, mid-range, luxury"
  else if t.preferences.pace_preference ∉ ["relaxed", "moderate", "fast"] then
    .error "Pace must be one of: relaxed, moderate, fast"
  else .ok ()

/-- The well-formedness condition of the claim: non-empty destination,
end not before start, duration within [1, 365], recognized budget and pace
tiers. -/
def WellFormedTrip (t : TripInput) : Prop :=
  t.destination ≠ "" ∧
  t.dates.start_date ≤ t.dates.end_date ∧
  1 ≤ t.dates.duration_days ∧
  t.dates.duration_days ≤ 365 ∧
  t.preferences.budget_level ∈ ["budget", "mid-range", "luxury"] ∧
  t.preferences.pace_preference ∈ ["relaxed", "moderate", "fast"]

instance (t : TripInput) : Decidable (WellFormedTrip t) := by
  unfold WellFormedTrip; infer_instance

/-- The validation error messages, each naming the offending field. -/
def validationMessages : List String :=
  ["Destination is required",
   "End date must be after start date",
   "Trip duration must be at least 1 day",
   "Trip duration cannot exceed 365 days",
   "Budget level must be one of: budget, mid-range, luxury",
   "Pace must be one of: relaxed, moderate, fast"]

/-- Embeds `load_trip_input` (src/planner_main.py lines 63-77): constructs the
`TripInput` and validates it before returning it unchanged. -/
def load_trip_input (t : TripInput) : Except String TripInput :=
  match validate_trip_input t with
  | .error e => .error e
  | .ok _ => .ok t

/-- Embeds `main_async` (src/planner_main.py lines 80-97) up to the generation
calls: `load_trip_input` runs first, and only on success does the
orchestrated run (abstracted as `runCalls`, returning the number of
generation-service calls it makes) start.  The second component counts the
generation calls actually performed. -/
def planPipeline (runCalls : TripInput → Nat) (t : TripInput) :
    Except String Nat × Nat :=
  match load_trip_input t with
  | .error e => (.error e, 0)
  | .ok t₁ => (.ok (runCalls t₁), runCalls t₁)

/-! ## Dynamic agent loading (`load_agents_for_model`,
src/agents/orchestrator_capstone.py lines 37-53)

`plan_trip` calls `load_agents_for_model()` (line 131) before the research
stage (line 156).  The lite branch runs
`from src.agents.lite_model import ResearchAgentLite, PlanningAgentLite, ReviewAgentLite`,
which executes `src/agents/lite_model/__init__.py`; the pro branch imports
from `src.agents.pro_model` likewise.  Executing a package `__init__`
resolves its `from .m import ...` statements in order, raising
`ModuleNotFoundError` at the first module file absent from the package
directory.  The module files actually present in the repository:

* `src/agents/lite_model/`: `research_agent.py`, `review_agent.py`
* `src/agents/pro_model/`:  `research_agent.py`

while both `__init__.py` files import, in order, `research_agent`,
`planning_agent`, `review_agent` (lite: lines 12-14, pro: lines 13-15). -/

def liteModelModuleFiles : List String := ["research_agent", "review_agent"]

def proModelModuleFiles : List String := ["research_agent"]

/-- The submodules imported by `lite_model/__init__.py` lines 12-14, in
order. -/
def liteInitImports : List String := ["research_agent", "planning_agent", "review_agent"]

/-- The submodules imported by `pro_model/__init__.py` lines 13-15, in
order. -/
def proInitImports : List String := ["research_agent", "planning_agent", "review_agent"]

/-- Executing a package `__init__`: resolve each `from .m import ...` in
order, failing at the first submodule whose file is absent. -/
def importPackage (present imports : List String) : Except String Unit :=
  match imports.find? (fun m => ¬ (present.contains m)) with
  | some m => .error ("No module named " ++ m)
  | none => .ok ()

/-- Embeds `load_agents_for_model` (src/agents/orchestrator_capstone.py lines
37-53): selects the package by `Config.get_model_tier()` and imports it. -/
def load_agents_for_model (modelName : String) : Except String Unit :=
  match get_model_tier modelName with
  | .lite => importPackage liteModelModuleFiles liteInitImports
  | .pro => importPackage proModelModuleFiles proInitImports

/-- The prefix of `plan_trip` (src/agents/orchestrator_capstone.py lines
112-156): agent loading happens at line 131, the research stage at line
156.  The second component counts research-stage executions; an import
error propagates before research runs. -/
def plan_trip_loading_stage (modelName : String) (research : Unit → Nat) :
    Except String Nat × Nat :=
  match load_agents_for_model modelName with
  | .error e => (.error e, 0)
  | .ok _ => (.ok (research ()), 1)

end Argonauts

namespace Argonauts

/-- Claim-level reading of "the text contains the token": an explicit
substring decomposition of the lowercased response (Python `tok in
text.lower()`), stated independently of the Boolean scan of the parser. -/
def mentionsToken (tok : String) (text : String) : Prop :=
  ∃ s₁ s₂, lowerChars text.data = s₁ ++ tok.data ++ s₂

/-! ### Invariants of the refinement loop -/

theorem refinementLoopAux_length {α : Type} (review : Nat → α → ReviewResult)
    (plan : Option String → Nat → α) (maxIter : Nat) :
    ∀ left iteration cur,
      (refinementLoopAux review plan maxIter left iteration cur).2.length ≤ left := by
  intro left
  induction left with
  | zero => intro iteration cur; simp [refinementLoopAux]
  | succ n ih =>
    intro iteration cur
    simp only [refinementLoopAux]
    split
    · split
      · simp
      · split
        · simpa using Nat.succ_le_succ (ih _ _)
        · simp
    · simp

theorem refinementLoopAux_head {α : Type} (review : Nat → α → ReviewResult)
    (plan : Option String → Nat → α) (maxIter : Nat) :
    ∀ left iteration cur, iteration ≤ maxIter → 1 ≤ left →
      (refinementLoopAux review plan maxIter left iteration cur).2.head? =
        some ⟨iteration, cur, review iteration cur⟩ := by
  intro left iteration cur hle hpos
  match left, hpos with
  | n + 1, _ =>
    simp only [refinementLoopAux]
    rw [if_pos hle]
    split
    · simp
    · split
      · simp
      · simp

theorem refinementLoopAux_getLast {α : Type} (review : Nat → α → ReviewResult)
    (plan : Option String → Nat → α) (maxIter : Nat) :
    ∀ left iteration cur, maxIter < iteration + left →
      (refinementLoopAux review plan maxIter left iteration cur).1 =
        ((refinementLoopAux review plan maxIter left iteration cur).2.getLastD
          ⟨iteration, cur, review iteration cur⟩).draft := by
  intro left
  induction left with
  | zero =>
    intro iteration cur hfuel
    simp [refinementLoopAux]
  | succ n ih =>
    intro iteration cur hfuel
    simp only [refinementLoopAux]
    by_cases h1 : iteration ≤ maxIter
    · rw [if_pos h1]
      by_cases h2 : (review iteration cur).approved = true
      · simp [h2]
      · simp only [h2, if_false, Bool.false_eq_true]
        by_cases h3 : iteration < maxIter
        · rw [if_pos h3]
          have hrec := ih (iteration + 1)
            (plan (some ((review iteration cur).review_summary)) (iteration + 1)) (by omega)
          have hne : (refinementLoopAux review plan maxIter n (iteration + 1)
              (plan (some ((review iteration cur).review_summary)) (iteration + 1))).2 ≠ [] := by
            have hh := refinementLoopAux_head review plan maxIter n (iteration + 1)
              (plan (some ((review iteration cur).review_summary)) (iteration + 1))
              (by omega) (by omega)
            intro hnil
            rw [hnil] at hh
            simp at hh
          simp only [List.getLastD_cons]
          rw [hrec, List.getLastD_eq_getLast?, List.getLastD_eq_getLast?,
            List.getLast?_eq_getLast _ hne]
          simp
        · rw [if_neg h3]
          simp
    · rw [if_neg h1]
      simp

end Argonauts

namespace Argonauts

theorem refinementLoopAux_chain {α : Type} (review : Nat → α → ReviewResult)
    (plan : Option String → Nat → α) (maxIter : Nat) :
    ∀ left iteration cur,
      RoundsChain plan (refinementLoopAux review plan maxIter left iteration cur).2 := by
  intro left
  induction left with
  | zero =>
    intro iteration cur
    simp [refinementLoopAux, RoundsChain]
  | succ n ih =>
    intro iteration cur
    simp only [refinementLoopAux]
    by_cases h1 : iteration ≤ maxIter
    · rw [if_pos h1]
      by_cases h2 : (review iteration cur).approved = true
      · simp [h2, RoundsChain]
      · simp only [h2, if_false, Bool.false_eq_true]
        by_cases h3 : iteration < maxIter
        · rw [if_pos h3]
          have ihrec := ih (iteration + 1)
            (plan (some ((review iteration cur).review_summary)) (iteration + 1))
          rcases hrec : (refinementLoopAux review plan maxIter n (iteration + 1)
              (plan (some ((review iteration cur).review_summary)) (iteration + 1))).2 with
            _ | ⟨y, t⟩
          · simp [hrec, RoundsChain]
          · have hn1 : 1 ≤ n := by
              by_contra hn0
              have : n = 0 := by omega
              subst this
              simp [refinementLoopAux] at hrec
            have hh := refinementLoopAux_head review plan maxIter n (iteration + 1)
              (plan (some ((review iteration cur).review_summary)) (iteration + 1))
              (by omega) hn1
            rw [hrec] at hh ihrec
            simp only [List.head?_cons, Option.some.injEq] at hh
            simp only [hrec, RoundsChain]
            refine ⟨?_, ihrec⟩
            refine ⟨by simpa using h2, ?_, ?_⟩
            · rw [hh]
            · rw [hh]
        · rw [if_neg h3]
          simp [RoundsChain]
    · rw [if_neg h1]
      simp [RoundsChain]

theorem refinementLoopAux_verdicts {α : Type} (review : Nat → α → ReviewResult)
    (plan : Option String → Nat → α) (maxIter : Nat) :
    ∀ left iteration cur r, r ∈ (refinementLoopAux review plan maxIter left iteration cur).2 →
      r.verdict = review r.iteration r.draft := by
  intro left
  induction left with
  | zero =>
    intro iteration cur r hr
    simp [refinementLoopAux] at hr
  | succ n ih =>
    intro iteration cur r hr
    simp only [refinementLoopAux] at hr
    by_cases h1 : iteration ≤ maxIter
    · rw [if_pos h1] at hr
      by_cases h2 : (review iteration cur).approved = true
      · simp [h2] at hr
        subst hr
        rfl
      · simp only [h2, if_false, Bool.false_eq_true] at hr
        by_cases h3 : iteration < maxIter
        · rw [if_pos h3] at hr
          simp only [List.mem_cons] at hr
          rcases hr with hr | hr
          · subst hr
            rfl
          · exact ih _ _ _ hr
        · rw [if_neg h3] at hr
          simp at hr
          subst hr
          rfl
    · rw [if_neg h1] at hr
      simp at hr

end Argonauts

namespace Argonauts

/-- C1: For every capability tier and every sequence of review responses
(including a generation service that never approves), the refinement loop in
`plan_trip` performs at most `iteration_budget` (= `get_max_iterations tier`)
Plan/Review round-trips and terminates returning the last-produced draft:
the trace has at most budget-many rounds, is non-empty, and the returned
itinerary is the draft of the last round (the draft of each round is the output
of the most recent plan call).  The loop is a total Lean function of the
review responses, so no sequence of rejections makes it raise; termination
is by construction. -/
theorem c1_refinement_loop_bounded {α : Type} (tier : ModelTier)
    (plan : Option String → Nat → α) (review : Nat → α → ReviewResult) :
    (runRefinementLoop plan review (get_max_iterations tier)).2.length ≤
        get_max_iterations tier ∧
    (runRefinementLoop plan review (get_max_iterations tier)).2 ≠ [] ∧
    (runRefinementLoop plan review (get_max_iterations tier)).1 =
      ((runRefinementLoop plan review (get_max_iterations tier)).2.getLastD
        ⟨1, plan none 1, review 1 (plan none 1)⟩).draft := by
  have h1 : 1 ≤ get_max_iterations tier := by cases tier <;> simp [get_max_iterations]
  refine ⟨refinementLoopAux_length review plan _ _ _ _, ?_, ?_⟩
  · have hh := refinementLoopAux_head review plan (get_max_iterations tier)
      (get_max_iterations tier) 1 (plan none 1) h1 h1
    intro hnil
    rw [runRefinementLoop] at hnil
    rw [hnil] at hh
    simp at hh
  · exact refinementLoopAux_getLast review plan _ _ _ _ (by omega)

/-- C8: Whenever a review rejects the current draft and iterations
remain, the loop controller increments the iteration counter by one and
re-invokes the planning stage with the `review_summary` of the rejecting
verdict passed as the `review_feedback` argument (`FeedbackStep`
between every pair of adjacent rounds); the first planning call is made
with no feedback (`none`), and the verdict of every round is the output of
the review stage on the draft and iteration of that round.  The planning stage
(`PlanningAgentLite`/`PlanningAgentPro`) is absent from the repository and
is modelled from the spec as the function `plan` accepting the optional
feedback string. -/
theorem c8_feedback_threading {α : Type} (tier : ModelTier)
    (plan : Option String → Nat → α) (review : Nat → α → ReviewResult) :
    (runRefinementLoop plan review (get_max_iterations tier)).2.head? =
      some ⟨1, plan none 1, review 1 (plan none 1)⟩ ∧
    RoundsChain plan (runRefinementLoop plan review (get_max_iterations tier)).2 ∧
    ∀ r ∈ (runRefinementLoop plan review (get_max_iterations tier)).2,
      r.verdict = review r.iteration r.draft := by
  have h1 : 1 ≤ get_max_iterations tier := by cases tier <;> simp [get_max_iterations]
  exact ⟨refinementLoopAux_head review plan _ _ _ _ h1 h1,
    refinementLoopAux_chain review plan _ _ _ _,
    fun r hr => refinementLoopAux_verdicts review plan _ _ _ _ r hr⟩

/-- Witness for C8: a concrete run (capstone parser on the fixed rejecting
text `"revise 2/10"`, pro budget); the verdict of its second round is checked,
discharging the membership hypothesis at a concrete round. -/
theorem c8_feedback_threading_witness :
    (⟨2, 2, capstoneResultOf "revise 2/10" 2⟩ :
        Round Nat).verdict =
      (fun (i : Nat) (_ : Nat) => capstoneResultOf "revise 2/10" i) 2 2 :=
  (c8_feedback_threading ModelTier.pro (fun _ k => k)
      (fun i _ => capstoneResultOf "revise 2/10" i)).2.2
    ⟨2, 2, capstoneResultOf "revise 2/10" 2⟩ (by decide)

/-- C9: For every model name, the agent-loading step of `plan_trip`
fails with an import error before any stage executes: both
`lite_model/__init__.py` and `pro_model/__init__.py` import a
`planning_agent` submodule that does not exist in those packages, so
`load_agents_for_model` raises `ModuleNotFoundError` for either tier and
the research stage is never reached (zero research executions). -/
theorem c9_agent_loading_always_fails (modelName : String) (research : Unit → Nat) :
    load_agents_for_model modelName = .error "No module named planning_agent" ∧
    plan_trip_loading_stage modelName research = (.error "No module named planning_agent", 0) := by
  have h : load_agents_for_model modelName = .error "No module named planning_agent" := by
    unfold load_agents_for_model
    cases get_model_tier modelName <;> rfl
  exact ⟨h, by simp [plan_trip_loading_stage, h]⟩

/-- C4: Strict (pro) tier, mock service always replying
`"Score: 5/10"`: the spec expects exactly 5 Plan/Review rounds with
force-termination at the loop budget `get_max_iterations .pro = 5`.  The
code instead performs exactly 3 rounds: the capstone parser force-approves
once `iteration >= Config.MAX_REVIEW_ITERATIONS` with the *static*
constant 3, not the tier budget 5, so the verdict at iteration 3 comes
back `approved = true` (score 5, no affirmative keyword) and the loop
stops, returning the 3rd draft. -/
theorem c4_strict_tier_mock_run :
    get_max_iterations .pro = 5 ∧
    (runRefinementLoop (fun _ k => k)
        (fun i (_ : Nat) => capstoneResultOf "Score: 5/10" i)
        (get_max_iterations .pro)).2.length = 3 ∧
    (runRefinementLoop (fun _ k => k)
        (fun i (_ : Nat) => capstoneResultOf "Score: 5/10" i)
        (get_max_iterations .pro)).2.length ≠ get_max_iterations .pro ∧
    (runRefinementLoop (fun _ k => k)
        (fun i (_ : Nat) => capstoneResultOf "Score: 5/10" i)
        (get_max_iterations .pro)).1 = 3 ∧
    ((runRefinementLoop (fun _ k => k)
        (fun i (_ : Nat) => capstoneResultOf "Score: 5/10" i)
        (get_max_iterations .pro)).2.map Round.iteration) = [1, 2, 3] ∧
    ((runRefinementLoop (fun _ k => k)
        (fun i (_ : Nat) => capstoneResultOf "Score: 5/10" i)
        (get_max_iterations .pro)).2.getLastD
          ⟨0, 0, capstoneResultOf "" 0⟩).verdict.approved = true ∧
    ((runRefinementLoop (fun _ k => k)
        (fun i (_ : Nat) => capstoneResultOf "Score: 5/10" i)
        (get_max_iterations .pro)).2.getLastD
          ⟨0, 0, capstoneResultOf "" 0⟩).verdict.quality_score = 5 ∧
    capstoneHasAffirmative "Score: 5/10" = false ∧
    capstoneApprovedFlag "Score: 5/10" 3 = true := by
  decide

end Argonauts

namespace Argonauts

/-! ### Substring containment: the Boolean scan agrees with the
decomposition reading -/

theorem startsWith_iff_append : ∀ (n h : List Char),
    startsWith n h = true ↔ ∃ s, h = n ++ s := by
  intro n
  induction n with
  | nil =>
    intro h
    simp [startsWith]
  | cons a as ih =>
    intro h
    cases h with
    | nil => simp [startsWith]
    | cons b bs =>
      simp only [startsWith, Bool.and_eq_true, beq_iff_eq, ih, List.cons_append,
        List.cons.injEq]
      constructor
      · rintro ⟨hab, s, hs⟩
        exact ⟨s, hab.symm, hs⟩
      · rintro ⟨s, hab, hs⟩
        exact ⟨hab.symm, s, hs⟩

theorem containsTok_iff_append (n : List Char) : ∀ h,
    containsTok n h = true ↔ ∃ s₁ s₂, h = s₁ ++ n ++ s₂ := by
  intro h
  induction h with
  | nil =>
    rw [containsTok, startsWith_iff_append]
    constructor
    · rintro ⟨s, hs⟩
      exact ⟨[], s, by simpa using hs⟩
    · rintro ⟨s₁, s₂, hs⟩
      rw [List.append_assoc] at hs
      rcases List.append_eq_nil.mp hs.symm with ⟨h₁, h₂⟩
      rcases List.append_eq_nil.mp h₂ with ⟨h₃, h₄⟩
      exact ⟨[], by simp [h₃]⟩
  | cons c t ih =>
    rw [containsTok]
    simp only [Bool.or_eq_true, startsWith_iff_append, ih]
    constructor
    · rintro (⟨s, hs⟩ | ⟨s₁, s₂, hs⟩)
      · exact ⟨[], s, by simpa using hs⟩
      · exact ⟨c :: s₁, s₂, by simp [hs]⟩
    · rintro ⟨s₁, s₂, hs⟩
      cases s₁ with
      | nil => exact Or.inl ⟨s₂, by simpa using hs⟩
      | cons a s₁ =>
        simp only [List.cons_append, List.cons.injEq] at hs
        exact Or.inr ⟨s₁, s₂, hs.2⟩

end Argonauts

namespace Argonauts

/-- C2 counterexample: The text `"quality score: 9/10"` at iteration 1
in the pro tier: the extracted score is 9, at or above the tier threshold 8,
no affirmative token is present and it is not the final permitted
iteration; the claim requires `approved = true` by the score disjunct, but
the capstone parser returns `approved = false` (its approval decision
never consults the score). -/
theorem c2_counterexample :
    findScore (lowerChars "quality score: 9/10".data) = some 9 ∧
    get_approval_threshold .pro ≤ 9 ∧
    capstoneHasAffirmative "quality score: 9/10" = false ∧
    1 < MAX_REVIEW_ITERATIONS ∧
    (capstoneResultOf "quality score: 9/10" 1).approved = false ∧
    capstoneParseReview "quality score: 9/10" 1 =
      some (capstoneResultOf "quality score: 9/10" 1) := by
  decide

/-- C2 amended: The approval disjunction of the claim is split across
the two parsers rather than implemented by either: the capstone parser sets
`approved` exactly when the lowercased text contains `"approve"` (hence
also `"approved"`) or `"looks good"`, or the iteration has reached the
static `Config.MAX_REVIEW_ITERATIONS` (3) — the score-threshold disjunct
is absent; the lite parser sets `approved` exactly when the extracted
score (default 7) reaches the tier threshold — the keyword and
final-iteration disjuncts are absent. -/
theorem c2_amended_approval_characterization (text : String) (iteration : Nat)
    (tier : ModelTier) :
    ((capstoneResultOf text iteration).approved = true ↔
      (mentionsToken "approve" text ∨ mentionsToken "approved" text ∨
       mentionsToken "looks good" text ∨ MAX_REVIEW_ITERATIONS ≤ iteration)) ∧
    ((liteResultOf tier text iteration).approved = true ↔
      get_approval_threshold tier ≤ liteScoreOf text) := by
  constructor
  · show capstoneApprovedFlag text iteration = true ↔ _
    rw [capstoneApprovedFlag, capstoneHasAffirmative, mentionsToken, mentionsToken,
      mentionsToken]
    simp only [Bool.or_eq_true, decide_eq_true_eq, containsTok_iff_append]
    constructor
    · rintro (((h | h) | h) | h)
      · exact Or.inl h
      · exact Or.inr (Or.inl h)
      · exact Or.inr (Or.inr (Or.inl h))
      · exact Or.inr (Or.inr (Or.inr h))
    · rintro (h | h | h | h)
      · exact Or.inl (Or.inl (Or.inl h))
      · exact Or.inl (Or.inl (Or.inr h))
      · exact Or.inl (Or.inr h)
      · exact Or.inr h
  · show decide (get_approval_threshold tier ≤ liteScoreOf text) = true ↔ _
    simp

end Argonauts

namespace Argonauts

/-- C3 counterexample: The text `"Score: 15/10"`: the regex extracts
15, neither parser clamps it to [0, 10], and constructing the
`ReviewResult` violates the pydantic `le=10` bound — the parser call
raises a `ValidationError` instead of returning a record (so neither
"never raises" nor "clamped to [0, 10]" holds). -/
theorem c3_counterexample :
    liteScoreOf "Score: 15/10" = 15 ∧
    liteParseReview .lite "Score: 15/10" 1 = none ∧
    capstoneParseReview "Score: 15/10" 1 = none := by
  decide

/-- C3 amended: Each parser computes its record fields totally and
preserves the raw response verbatim in `review_summary`; it returns a
`ReviewVerdict` without raising exactly when the score it assigns
(extracted, or the default) lies within the pydantic bound `[0, 10]` —
the score is validated against the bound, not clamped, so an extracted
score above 10 raises at record construction. -/
theorem c3_amended_raise_iff_score_out_of_bounds (tier : ModelTier) (text : String)
    (iteration : Nat) :
    (liteScoreOf text ≤ 10 →
      liteParseReview tier text iteration = some (liteResultOf tier text iteration) ∧
      (liteResultOf tier text iteration).review_summary = text ∧
      (liteResultOf tier text iteration).quality_score = liteScoreOf text) ∧
    (10 < liteScoreOf text → liteParseReview tier text iteration = none) ∧
    (capstoneScoreOf text iteration ≤ 10 →
      capstoneParseReview text iteration = some (capstoneResultOf text iteration) ∧
      (capstoneResultOf text iteration).review_summary = text) ∧
    (10 < capstoneScoreOf text iteration → capstoneParseReview text iteration = none) := by
  have hq : (liteResultOf tier text iteration).quality_score = liteScoreOf text := rfl
  have hqc : (capstoneResultOf text iteration).quality_score =
      capstoneScoreOf text iteration := rfl
  refine ⟨fun h => ⟨?_, rfl, hq⟩, fun h => ?_, fun h => ⟨?_, rfl⟩, fun h => ?_⟩
  · rw [liteParseReview, pydanticCheck, hq, if_pos h]
  · rw [liteParseReview, pydanticCheck, hq, if_neg (by omega)]
  · rw [capstoneParseReview, pydanticCheck, hqc, if_pos h]
  · rw [capstoneParseReview, pydanticCheck, hqc, if_neg (by omega)]

/-- Witness for C3 (amended): concrete texts on both sides of the bound. -/
theorem c3_amended_witness :
    (liteParseReview .lite "fine 9/10" 1 = some (liteResultOf .lite "fine 9/10" 1) ∧
     (liteResultOf .lite "fine 9/10" 1).review_summary = "fine 9/10" ∧
     (liteResultOf .lite "fine 9/10" 1).quality_score = liteScoreOf "fine 9/10") ∧
    liteParseReview .lite "awful 12/10" 1 = none ∧
    capstoneParseReview "fine 9/10" 2 = some (capstoneResultOf "fine 9/10" 2) :=
  ⟨(c3_amended_raise_iff_score_out_of_bounds .lite "fine 9/10" 1).1 (by decide),
   (c3_amended_raise_iff_score_out_of_bounds .lite "awful 12/10" 1).2.1 (by decide),
   ((c3_amended_raise_iff_score_out_of_bounds .lite "fine 9/10" 2).2.2.1 (by decide)).1⟩

/-- C5 counterexample: Text A = `"rated 10/10 overall"` at iteration
1: its extracted score 10 is at or above either tier threshold and no
approval keyword is present, so the claim requires `approved = true`; the
capstone review parser nevertheless returns `approved = false` (its
approval ignores the score entirely). -/
theorem c5_counterexample :
    findScore (lowerChars "rated 10/10 overall".data) = some 10 ∧
    get_approval_threshold .pro ≤ 10 ∧
    capstoneHasAffirmative "rated 10/10 overall" = false ∧
    1 < MAX_REVIEW_ITERATIONS ∧
    (capstoneResultOf "rated 10/10 overall" 1).approved = false := by
  decide

/-- C5 amended: Score monotonicity of approval holds for the lite
parser: with extracted scores `a ≥ threshold` and `b < threshold`, text A
parses to `approved = true` and text B to `approved = false`, for every
tier and iteration (keywords are irrelevant to the lite parser).  For the
capstone parser the property fails: absent affirmative tokens and before
the static final iteration, its verdict is `approved = false` regardless
of the extracted score. -/
theorem c5_amended_lite_monotonic (tier : ModelTier) (iteration : Nat) (A B : String)
    (a b : Nat)
    (hA : findScore (lowerChars A.data) = some a)
    (hB : findScore (lowerChars B.data) = some b)
    (ha : get_approval_threshold tier ≤ a) (hb : b < get_approval_threshold tier) :
    (liteResultOf tier A iteration).approved = true ∧
    (liteResultOf tier B iteration).approved = false ∧
    (capstoneHasAffirmative A = false → iteration < MAX_REVIEW_ITERATIONS →
      (capstoneResultOf A iteration).approved = false) := by
  refine ⟨?_, ?_, fun hk hi => ?_⟩
  · show decide (get_approval_threshold tier ≤ (findScore (lowerChars A.data)).getD 7) = true
    rw [hA]
    simpa using ha
  · show decide (get_approval_threshold tier ≤ (findScore (lowerChars B.data)).getD 7) = false
    rw [hB]
    simp only [Option.getD_some, decide_eq_false_iff_not]
    omega
  · show capstoneApprovedFlag A iteration = false
    rw [capstoneApprovedFlag, hk]
    simp only [Bool.false_or, decide_eq_false_iff_not]
    omega

/-- Witness for C5 (amended): tier `lite` (threshold 7), scores 9 and 3. -/
theorem c5_amended_witness :
    (liteResultOf .lite "solid work 9/10" 1).approved = true ∧
    (liteResultOf .lite "weak 3/10" 1).approved = false ∧
    (capstoneResultOf "solid work 9/10" 1).approved = false := by
  have h := c5_amended_lite_monotonic .lite 1 "solid work 9/10" "weak 3/10" 9 3
    (by decide) (by decide) (by decide) (by decide)
  exact ⟨h.1, h.2.1, h.2.2 (by decide) (by decide)⟩

/-- C6 counterexample: The score-free text `"needs substantial
rework"` in the lenient (lite) tier: the lite parser does return its
default score 7.0, but `approved` comes back `true`, not `false` — the
default meets the lenient threshold 7.0, so the claimed `approved = false`
fails. -/
theorem c6_counterexample :
    findScore (lowerChars "needs substantial rework".data) = none ∧
    get_approval_threshold .lite = 7 ∧
    (liteResultOf .lite "needs substantial rework" 1).quality_score = 7 ∧
    (liteResultOf .lite "needs substantial rework" 1).approved = true := by
  decide

/-- C6 amended: On review text with no recognizable score pattern:
the lite parser returns the default score 7.0 (for every tier) with
`approved = (threshold ≤ 7)` — `true` in the lenient tier, `false` in the
strict one — and does not raise; the capstone parser, absent affirmative
tokens and before the static final iteration, returns its rejected
default 6 with `approved = false` and does not raise. -/
theorem c6_amended_default_scores (tier : ModelTier) (text : String) (iteration : Nat)
    (h : findScore (lowerChars text.data) = none) :
    (liteResultOf tier text iteration).quality_score = 7 ∧
    (liteResultOf tier text iteration).approved =
      decide (get_approval_threshold tier ≤ 7) ∧
    liteParseReview tier text iteration = some (liteResultOf tier text iteration) ∧
    (capstoneHasAffirmative text = false → iteration < MAX_REVIEW_ITERATIONS →
      (capstoneResultOf text iteration).quality_score = 6 ∧
      (capstoneResultOf text iteration).approved = false ∧
      capstoneParseReview text iteration = some (capstoneResultOf text iteration)) := by
  have hq : (liteResultOf tier text iteration).quality_score = 7 := by
    show (findScore (lowerChars text.data)).getD 7 = 7
    rw [h]
    rfl
  refine ⟨hq, ?_, ?_, fun hk hi => ?_⟩
  · show decide (get_approval_threshold tier ≤ (findScore (lowerChars text.data)).getD 7) = _
    rw [h]
    rfl
  · rw [liteParseReview, pydanticCheck,
      show (liteResultOf tier text iteration).quality_score = 7 from hq, if_pos (by omega)]
  · have hflag : capstoneApprovedFlag text iteration = false := by
      rw [capstoneApprovedFlag, hk]
      simp only [Bool.false_or, decide_eq_false_iff_not]
      omega
    have hsc : (capstoneResultOf text iteration).quality_score = 6 := by
      show (findScore (lowerChars text.data)).getD
        (if capstoneApprovedFlag text iteration then 8 else 6) = 6
      rw [h, hflag]
      rfl
    refine ⟨hsc, by show capstoneApprovedFlag text iteration = false; exact hflag, ?_⟩
    rw [capstoneParseReview, pydanticCheck, hsc, if_pos (by omega)]

/-- Witness for C6 (amended): the score-free text `"please redo this"`. -/
theorem c6_amended_witness :
    (liteResultOf .pro "please redo this" 1).quality_score = 7 ∧
    (liteResultOf .pro "please redo this" 1).approved = false ∧
    (capstoneResultOf "please redo this" 1).quality_score = 6 ∧
    (capstoneResultOf "please redo this" 1).approved = false := by
  have h := c6_amended_default_scores .pro "please redo this" 1 (by decide)
  have h2 := h.2.2.2 (by decide) (by decide)
  exact ⟨h.1, by rw [h.2.1]; decide, h2.1, h2.2.1⟩

end Argonauts

namespace Argonauts

/-! ### The score regex on decimal-pointed scores -/

theorem takeWhile_append_of_all (p : Char → Bool) :
    ∀ (l : List Char) (x : Char) (r : List Char), (∀ c ∈ l, p c = true) → p x = false →
      (l ++ x :: r).takeWhile p = l ∧ (l ++ x :: r).dropWhile p = x :: r := by
  intro l
  induction l with
  | nil =>
    intro x r _ hx
    simp [List.takeWhile_cons, List.dropWhile_cons, hx]
  | cons c t ih =>
    intro x r hl hx
    have hc : p c = true := hl c (by simp)
    have iht := ih x r (fun d hd => hl d (by simp [hd])) hx
    simp [List.takeWhile_cons, List.dropWhile_cons, hc, iht.1, iht.2]

theorem findScore_skip_nondigits :
    ∀ (pre l : List Char), (∀ c ∈ pre, c.isDigit = false) →
      findScore (pre ++ l) = findScore l := by
  intro pre
  induction pre with
  | nil => intro l _; rfl
  | cons c t ih =>
    intro l hp
    have hc : c.isDigit = false := hp c (by simp)
    rw [List.cons_append, findScore, if_neg (by simp [hc])]
    exact ih l (fun d hd => hp d (by simp [hd]))

theorem findScore_skip_digitrun_dot (l : List Char) :
    ∀ ds, (∀ c ∈ ds, c.isDigit = true) → findScore (ds ++ '.' :: l) = findScore l := by
  intro ds
  induction ds with
  | nil =>
    intro _
    rw [List.nil_append, findScore, if_neg (by decide)]
  | cons d t ih =>
    intro hd
    have hdd : d.isDigit = true := hd d (by simp)
    have hdrop : ((d :: t) ++ '.' :: l).dropWhile Char.isDigit = '.' :: l :=
      (takeWhile_append_of_all Char.isDigit (d :: t) '.' l hd (by decide)).2
    rw [List.cons_append, findScore, if_pos hdd, ← List.cons_append, hdrop,
      if_neg (by rw [show scoreSuffixOk ('.' :: l) = false from rfl]; simp)]
    exact ih (fun c hc => hd c (by simp [hc]))

theorem findScore_at_digitrun (f rest : List Char)
    (hf : ∀ c ∈ f, c.isDigit = true) (hne : f ≠ []) :
    findScore (f ++ '/' :: '1' :: '0' :: rest) = some (digitsToNat f) := by
  match f, hne with
  | c :: t, _ =>
    have hc : c.isDigit = true := hf c (by simp)
    have hsplit := takeWhile_append_of_all Char.isDigit (c :: t) '/'
      ('1' :: '0' :: rest) hf (by decide)
    rw [List.cons_append, findScore, if_pos hc, ← List.cons_append, hsplit.2,
      if_pos (by rfl), hsplit.1]

/-- C10: The score regex `(\d+)(?:/10| out of 10)` captures only the
digits after a decimal point: for any score written `<digits>.<digits>/10`
(with no digits earlier in the text), the first match is the fractional
digit run, so both review parsers read `"Score: 8.5/10"` as quality score
5 rather than 8.5 — which can flip the approval decision, since 8.5 meets
the lenient threshold 7.0 while the parsed 5 does not. -/
theorem c10_decimal_score_truncation :
    (∀ (pre intPart frac rest : List Char),
      (∀ c ∈ pre, c.isDigit = false) → (∀ c ∈ intPart, c.isDigit = true) →
      (∀ c ∈ frac, c.isDigit = true) → frac ≠ [] →
      findScore (pre ++ (intPart ++ '.' :: (frac ++ '/' :: '1' :: '0' :: rest))) =
        some (digitsToNat frac)) ∧
    findScore (lowerChars "Score: 8.5/10".data) = some 5 ∧
    (liteResultOf .lite "Score: 8.5/10" 1).quality_score = 5 ∧
    (liteResultOf .lite "Score: 8.5/10" 1).approved = false ∧
    capstoneScoreOf "Score: 8.5/10" 1 = 5 ∧
    ((get_approval_threshold .lite : ℚ) ≤ (8.5 : ℚ)) := by
  refine ⟨?_, by decide, by decide, by decide, by decide,
    by norm_num [get_approval_threshold]⟩
  intro pre intPart frac rest hpre hint hfrac hne
  rw [findScore_skip_nondigits pre _ hpre,
    findScore_skip_digitrun_dot _ intPart hint,
    findScore_at_digitrun frac rest hfrac hne]

/-- Witness for C10: the decomposition of `"score: 8.5/10"` itself. -/
theorem c10_decimal_score_truncation_witness :
    findScore ("score: ".data ++ (['8'] ++ '.' :: (['5'] ++ '/' :: '1' :: '0' :: []))) =
      some (digitsToNat ['5']) :=
  c10_decimal_score_truncation.1 "score: ".data ['8'] ['5'] []
    (by decide) (by decide) (by decide) (by decide)

end Argonauts

namespace Argonauts

/-- C7: `validate_trip_input` raises an `InvalidInputError` exactly when
the `TripParameters` are malformed (end date before start date, empty
destination, duration outside [1, 365], or unrecognized budget/pace tier);
the error message is one of the fixed field-naming messages; the check
runs in `load_trip_input` before the orchestrated run, so an invalid input
yields zero generation calls and the run never starts; a valid input is
returned unchanged and the run proceeds. -/
theorem c7_validate_before_any_generation_call (t : TripInput)
    (runCalls : TripInput → Nat) :
    (validate_trip_input t = .ok () ↔ WellFormedTrip t) ∧
    (∀ e, validate_trip_input t = .error e →
      e ∈ validationMessages ∧ (planPipeline runCalls t).2 = 0) ∧
    (WellFormedTrip t → load_trip_input t = .ok t ∧
      planPipeline runCalls t = (.ok (runCalls t), runCalls t)) := by
  have hiff : validate_trip_input t = .ok () ↔ WellFormedTrip t := by
    unfold validate_trip_input WellFormedTrip TripDates.duration_days
    split_ifs with h1 h2 h3 h4 h5 h6 <;> (simp_all; try omega)
  have herr : ∀ e, validate_trip_input t = .error e → e ∈ validationMessages := by
    unfold validate_trip_input
    split_ifs <;> (intro e he; simp_all [validationMessages])
  have hzero : ∀ e, validate_trip_input t = .error e → (planPipeline runCalls t).2 = 0 := by
    intro e he
    simp [planPipeline, load_trip_input, he]
  refine ⟨hiff, fun e he => ⟨herr e he, hzero e he⟩, fun hwf => ?_⟩
  have hv : validate_trip_input t = .ok () := hiff.mpr hwf
  constructor
  · rw [load_trip_input, hv]
  · rw [planPipeline, load_trip_input, hv]

/-- Witness for C7: a trip whose end date precedes its start date is
rejected with the date-naming message and zero generation calls; a
well-formed trip passes through unchanged. -/
theorem c7_validate_witness :
    ("End date must be after start date" ∈ validationMessages ∧
      (planPipeline (fun _ => 4)
        ⟨"Tokyo, Japan", ⟨100, 90⟩, ⟨[], "moderate", "mid-range", []⟩⟩).2 = 0) ∧
    (load_trip_input ⟨"Tokyo, Japan", ⟨1, 10⟩, ⟨[], "moderate", "mid-range", []⟩⟩ =
        .ok ⟨"Tokyo, Japan", ⟨1, 10⟩, ⟨[], "moderate", "mid-range", []⟩⟩ ∧
      planPipeline (fun _ => 4) ⟨"Tokyo, Japan", ⟨1, 10⟩, ⟨[], "moderate", "mid-range", []⟩⟩ =
        (.ok 4, 4)) :=
  ⟨(c7_validate_before_any_generation_call
      ⟨"Tokyo, Japan", ⟨100, 90⟩, ⟨[], "moderate", "mid-range", []⟩⟩ (fun _ => 4)).2.1
      "End date must be after start date" rfl,
   (c7_validate_before_any_generation_call
      ⟨"Tokyo, Japan", ⟨1, 10⟩, ⟨[], "moderate", "mid-range", []⟩⟩ (fun _ => 4)).2.2
      (by decide)⟩

end Argonauts
